import Mathlib

/-!
# Verification of the patient-events projector

A shallow embedding of `src/patient_events/lambdas/projector.py`
(repository `patient-storage-poc`) together with proofs checking the
natural-language specification against it.

Modelling conventions:

* A DynamoDB item (a Python dict produced by `_deserialize`) is an
  insertion-ordered association list from string keys to field values.
  Field values are either strings, the Python `None`, or an opaque decoded
  value of a type parameter `V` (numbers, booleans, lists, nested maps —
  the projector copies these without inspecting them).
* Python exceptions (`KeyError` on a missing dict key, `TypeError` on an
  unorderable comparison) are modelled with `Except String`; an uncaught
  exception aborts the whole invocation, as in Python.
* Python dict semantics are modelled faithfully: assigning to an existing
  key keeps its original insertion position (`dictUpdate`), assigning a
  fresh key appends it, and `list(d.values())` reads values in insertion
  order.
* The DynamoDB stream record is taken at the boundary after
  `_deserialize`: `StreamRecord` carries the change kind (`eventName`)
  and the decoded new image, typed by the fields the handler reads.
  `_batch_write_table` performs only external effects, so the handler is
  modelled as returning, per target table, the list of items written
  (`none` when no write call is made at all).
-/

set_option linter.unusedSectionVars false
set_option linter.unusedVariables false

deriving instance DecidableEq for Except

namespace Projector

/-- A decoded field value stored in an item dict: a string, the Python
`None`, or an opaque decoded value (number, boolean, list, nested map). -/
inductive FVal (V : Type) where
  | s : String → FVal V
  | null : FVal V
  | v : V → FVal V
deriving DecidableEq, Repr

/-- A DynamoDB item: an insertion-ordered dict from string keys to values. -/
abbrev Item (V : Type) := List (String × FVal V)

/-- The `(PK, SK)` pair used as the deduplication dictionary key. -/
abbrev Key (V : Type) := FVal V × FVal V

variable {V : Type} [DecidableEq V]

/-- Python `item.get(k)`: the value at key `k`, or `none` when absent. -/
def dget (it : Item V) (k : String) : Option (FVal V) :=
  match it with
  | [] => none
  | (k1, x) :: rest => if k1 = k then some x else dget rest k

/-- Python `item[k]`: the value at key `k`, raising `KeyError` when absent. -/
def getField (it : Item V) (k : String) : Except String (FVal V) :=
  match dget it k with
  | some x => .ok x
  | none => .error ("KeyError: " ++ k)

/-- `key = (item["PK"], item["SK"])` from `_deduplicate_items`. -/
def itemKey (it : Item V) : Except String (Key V) :=
  match getField it "PK" with
  | .error e => .error e
  | .ok pk =>
    match getField it "SK" with
    | .error e => .error e
    | .ok sk => .ok (pk, sk)

/-- Python `a["occurredAt"] > b["occurredAt"]`: looks both values up
(`KeyError` when absent) and compares them; string values compare
lexicographically, anything else raises `TypeError`. -/
def occGt (a b : Item V) : Except String Bool :=
  match getField a "occurredAt" with
  | .error e => .error e
  | .ok x =>
    match getField b "occurredAt" with
    | .error e => .error e
    | .ok y =>
      match x, y with
      | FVal.s xs, FVal.s ys => .ok (decide (ys < xs))
      | _, _ => .error "TypeError: unorderable occurredAt values"

/-- Lookup in an insertion-ordered dict (`key in d` / `d[key]`). -/
def dictLookup (d : List (Key V × Item V)) (k : Key V) : Option (Item V) :=
  match d with
  | [] => none
  | (k1, x) :: rest => if k1 = k then some x else dictLookup rest k

/-- Python dict assignment to an existing key: the key keeps its original
insertion position, only its value changes. -/
def dictUpdate (d : List (Key V × Item V)) (k : Key V) (it : Item V) :
    List (Key V × Item V) :=
  d.map (fun p => if p.1 = k then (k, it) else p)

/-- One iteration of the loop in `_deduplicate_items`: keep the incoming
item iff its key is unseen or its `occurredAt` is strictly greater. -/
def dedupStep (d : List (Key V × Item V)) (it : Item V) :
    Except String (List (Key V × Item V)) :=
  match itemKey it with
  | .error e => .error e
  | .ok key =>
    match dictLookup d key with
    | none => .ok (d ++ [(key, it)])
    | some old =>
      match occGt it old with
      | .error e => .error e
      | .ok gt => .ok (if gt then dictUpdate d key it else d)

/-- The `for item in items` loop of `_deduplicate_items`. -/
def dedupLoop (items : List (Item V)) (d : List (Key V × Item V)) :
    Except String (List (Key V × Item V)) :=
  match items with
  | [] => .ok d
  | it :: rest =>
    match dedupStep d it with
    | .error e => .error e
    | .ok d2 => dedupLoop rest d2

/-- `_deduplicate_items(items)`: deduplicate by `(PK, SK)`, keeping the
item with the strictly greatest `occurredAt`; returns
`list(key_to_item.values())` in dict insertion order. -/
def deduplicate_items (items : List (Item V)) : Except String (List (Item V)) :=
  match dedupLoop items [] with
  | .error e => .error e
  | .ok d => .ok (d.map Prod.snd)

/-- Python `item.get("recordType", "HISTORY")`. -/
def recordTypeOf (it : Item V) : FVal V :=
  (dget it "recordType").getD (FVal.s "HISTORY")

/-- One iteration of the loop in `_deduplicate_latest_records_only`:
`HISTORY` items are appended to the history list, `LATEST` items are
deduplicated by `(PK, SK)`, any other record type is dropped. -/
def dedupLatestStep (acc : List (Item V) × List (Key V × Item V)) (it : Item V) :
    Except String (List (Item V) × List (Key V × Item V)) :=
  if recordTypeOf it = FVal.s "HISTORY" then .ok (acc.1 ++ [it], acc.2)
  else if recordTypeOf it = FVal.s "LATEST" then
    match itemKey it with
    | .error e => .error e
    | .ok key =>
      match dictLookup acc.2 key with
      | none => .ok (acc.1, acc.2 ++ [(key, it)])
      | some old =>
        match occGt it old with
        | .error e => .error e
        | .ok gt => .ok (acc.1, if gt then dictUpdate acc.2 key it else acc.2)
  else .ok acc

/-- The `for item in items` loop of `_deduplicate_latest_records_only`. -/
def dedupLatestLoop (items : List (Item V))
    (acc : List (Item V) × List (Key V × Item V)) :
    Except String (List (Item V) × List (Key V × Item V)) :=
  match items with
  | [] => .ok acc
  | it :: rest =>
    match dedupLatestStep acc it with
    | .error e => .error e
    | .ok acc2 => dedupLatestLoop rest acc2

/-- `_deduplicate_latest_records_only(items)`: all history records (in
order) followed by the deduplicated latest records. -/
def deduplicate_latest_records_only (items : List (Item V)) :
    Except String (List (Item V)) :=
  match dedupLatestLoop items ([], []) with
  | .error e => .error e
  | .ok acc => .ok (acc.1 ++ acc.2.map Prod.snd)

/-- The `value` payload of one changed attribute: the dict under an
attribute name in `changes`; `payload.get("value")` conflates a missing
`value` key with a `None` value, so one `Option` suffices. -/
structure ChangePayload (V : Type) where
  value : Option (FVal V)
deriving DecidableEq, Repr

/-- A decoded event item (`event_item = _deserialize(new_img)`), typed by
the fields the handler reads. `none` models an absent dict key: the
required fields (`resourceType`, `resourceId`, `changes`, `occurredAt`)
are read with `event_item[...]` and raise `KeyError` when absent, the
rest with `event_item.get(...)`. -/
structure EventItem (V : Type) where
  resourceType : Option String
  resourceId : Option String
  changes : Option (List (String × ChangePayload V))
  programYearName : Option (FVal V)
  programTag : Option String
  updatedBy : Option String
  source : Option String
  occurredAt : Option String
deriving DecidableEq, Repr

/-- One DynamoDB stream record: its change kind (`record["eventName"]`)
and the decoded new image (`_deserialize(record["dynamodb"]["NewImage"])`). -/
structure StreamRecord (V : Type) where
  eventName : String
  newImage : EventItem V
deriving DecidableEq, Repr

/-- The PatientCurrentState item appended per changed attribute. -/
def currentStateItem (pk attr : String) (value : FVal V)
    (occurredAt updatedBy : String) : Item V :=
  [("PK", FVal.s pk), ("SK", FVal.s ("ATTR#" ++ attr)),
   ("attribute", FVal.s attr), ("value", value),
   ("occurredAt", FVal.s occurredAt), ("updatedBy", FVal.s updatedBy)]

/-- The historical PatientAttributeLastUpdated item (timestamp in SK). -/
def historyItem (pk attr : String) (value programYear : FVal V)
    (programTag occurredAt updatedBy : String) : Item V :=
  [("PK", FVal.s pk), ("SK", FVal.s ("ATTR#" ++ attr ++ "#" ++ occurredAt)),
   ("attribute", FVal.s attr), ("value", value),
   ("programYearName", programYear), ("programTag", FVal.s programTag),
   ("occurredAt", FVal.s occurredAt), ("updatedBy", FVal.s updatedBy),
   ("recordType", FVal.s "HISTORY")]

/-- The latest PatientAttributeLastUpdated item (SK ends in `LATEST`). -/
def latestItem (pk attr : String) (value programYear : FVal V)
    (programTag occurredAt updatedBy : String) : Item V :=
  [("PK", FVal.s pk), ("SK", FVal.s ("ATTR#" ++ attr ++ "#LATEST")),
   ("attribute", FVal.s attr), ("value", value),
   ("programYearName", programYear), ("programTag", FVal.s programTag),
   ("occurredAt", FVal.s occurredAt), ("updatedBy", FVal.s updatedBy),
   ("recordType", FVal.s "LATEST")]

/-- The source-scoped latest item, appended only when `source` is truthy. -/
def sourceLatestItem (pk attr : String) (value programYear : FVal V)
    (programTag occurredAt updatedBy source : String) : Item V :=
  [("PK", FVal.s pk), ("SK", FVal.s ("ATTR#" ++ attr ++ "#LATEST#" ++ source)),
   ("attribute", FVal.s attr), ("value", value),
   ("programYearName", programYear), ("programTag", FVal.s programTag),
   ("occurredAt", FVal.s occurredAt), ("updatedBy", FVal.s updatedBy),
   ("recordType", FVal.s "LATEST")]

/-- The per-event body of the handler loop: field extraction (required
fields raise `KeyError` in source order, optional fields default as in
`event_item.get`), then the two `for attr, payload in changes.items()`
loops building the PatientCurrentState and PatientAttributeLastUpdated
candidate lists. -/
def processEventItem (e : EventItem V) :
    Except String (List (Item V) × List (Item V)) :=
  match e.resourceType with
  | none => .error "KeyError: resourceType"
  | some resourceType =>
  match e.resourceId with
  | none => .error "KeyError: resourceId"
  | some resourceId =>
  match e.changes with
  | none => .error "KeyError: changes"
  | some changes =>
  let programYear : FVal V := e.programYearName.getD FVal.null
  let programTag : String := e.programTag.getD ""
  let updatedBy : String := e.updatedBy.getD ""
  let source : String := e.source.getD ""
  match e.occurredAt with
  | none => .error "KeyError: occurredAt"
  | some occurredAt =>
  let pk := resourceType ++ "#" ++ resourceId
  let csItems := changes.map (fun ac =>
    currentStateItem pk ac.1 (ac.2.value.getD FVal.null) occurredAt updatedBy)
  let aluItems := changes.flatMap (fun ac =>
    let value := ac.2.value.getD FVal.null
    [historyItem pk ac.1 value programYear programTag occurredAt updatedBy,
     latestItem pk ac.1 value programYear programTag occurredAt updatedBy]
    ++ (if source ≠ "" then
          [sourceLatestItem pk ac.1 value programYear programTag occurredAt
            updatedBy source]
        else []))
  .ok (csItems, aluItems)

/-- The total number of candidate records the fan-out emits for one
event, summed over both target tables. -/
def candidateCount (e : EventItem V) : Except String Nat :=
  Except.map (fun p => p.1.length + p.2.length) (processEventItem e)

/-- The `for record in event.get("Records", [])` loop of the handler:
records whose `eventName` is neither `INSERT` nor `MODIFY` are skipped,
the rest are decoded and fanned out, accumulating candidates for the two
target tables; an exception aborts the whole invocation. -/
def handlerLoop (records : List (StreamRecord V))
    (acc : List (Item V) × List (Item V)) :
    Except String (List (Item V) × List (Item V)) :=
  match records with
  | [] => .ok acc
  | r :: rest =>
    if r.eventName = "INSERT" ∨ r.eventName = "MODIFY" then
      match processEventItem r.newImage with
      | .error e => .error e
      | .ok (cs, alu) => handlerLoop rest (acc.1 ++ cs, acc.2 ++ alu)
    else handlerLoop rest acc

/-- The observable outcome of one invocation: per target table, the
deduplicated item list passed to `_batch_write_table`, or `none` when the
table is not written to at all. -/
structure HandlerResult (V : Type) where
  currentStateWrites : Option (List (Item V))
  attrLastUpdatedWrites : Option (List (Item V))
deriving DecidableEq, Repr

/-- `handler(event, context)`: run the accumulation loop, then, for each
table whose candidate list is non-empty (Python list truthiness),
deduplicate and batch-write it; an empty candidate list produces no write
call. -/
def handler (records : List (StreamRecord V)) :
    Except String (HandlerResult V) :=
  match handlerLoop records ([], []) with
  | .error e => .error e
  | .ok (csItems, aluItems) =>
    match (if csItems.isEmpty then Except.ok none
           else Except.map some (deduplicate_items csItems)) with
    | .error e => .error e
    | .ok csW =>
      match (if aluItems.isEmpty then Except.ok none
             else Except.map some (deduplicate_latest_records_only aluItems)) with
      | .error e => .error e
      | .ok aluW => .ok ⟨csW, aluW⟩

/-- The classification the code applies in
`_deduplicate_latest_records_only`: an item counts as history when
`item.get("recordType", "HISTORY")` equals `"HISTORY"` (so a missing
`recordType` key defaults to history). -/
def isHistoryByDefault (it : Item V) : Bool :=
  decide (recordTypeOf it = FVal.s "HISTORY")

/-- An item whose literal `recordType` field is present and equals
`"HISTORY"`. -/
def hasHistoryRecordType (it : Item V) : Bool :=
  decide (dget it "recordType" = some (FVal.s "HISTORY"))

/-! ### Concrete inputs used by witnesses and counterexamples -/

/-- The event of end-to-end scenario 1: a single `email` change for
patient `P1` at `T1`, with no optional field present. -/
def event1 : EventItem Unit :=
  ⟨some "patient", some "P1", some [("email", ⟨some (FVal.s "a@x.com")⟩)],
   none, none, none, none, some "T1"⟩

/-- The one-record batch of end-to-end scenario 1. -/
def batch1 : List (StreamRecord Unit) := [⟨"MODIFY", event1⟩]

/-- The PatientCurrentState candidate the code produces for `batch1`. -/
def c1CurrentItem : Item Unit :=
  currentStateItem "patient#P1" "email" (FVal.s "a@x.com") "T1" ""

/-- The history candidate the code produces for `batch1`. -/
def c1HistoryItem : Item Unit :=
  historyItem "patient#P1" "email" (FVal.s "a@x.com") FVal.null "" "T1" ""

/-- The latest candidate the code produces for `batch1`. -/
def c1LatestItem : Item Unit :=
  latestItem "patient#P1" "email" (FVal.s "a@x.com") FVal.null "" "T1" ""

/-- An event with one change, a non-empty `source` and `programYearName`
(and `programTag`) present. -/
def eventSY : EventItem Unit :=
  ⟨some "patient", some "P2", some [("email", ⟨some (FVal.s "b@x.com")⟩)],
   some (FVal.s "2025"), some "Centene", some "u1", some "ETL", some "T3"⟩

/-- An event whose required `occurredAt` key is absent. -/
def eventNoOccurredAt : EventItem Unit :=
  ⟨some "patient", some "P9", some [("email", ⟨some (FVal.s "x")⟩)],
   none, none, none, none, none⟩

/-- A well-formed event with an empty `changes` mapping. -/
def eventEmptyChanges : EventItem Unit :=
  ⟨some "patient", some "P3", some [], none, none, none, none, some "T4"⟩

/-- A current-state item for `email` of `patient#P1` at `T2`. -/
def itemT2 : Item Unit := currentStateItem "patient#P1" "email" (FVal.s "v2") "T2" ""

/-- A current-state item for the same `(PK, SK)` at the older `T1`. -/
def itemT1 : Item Unit := currentStateItem "patient#P1" "email" (FVal.s "v1") "T1" ""

/-- A current-state item tying `itemT1` on `(PK, SK)` and `occurredAt`
but carrying a different value. -/
def itemT1Tie : Item Unit := currentStateItem "patient#P1" "email" (FVal.s "v2") "T1" ""

/-- A `LATEST` item for `email` of `patient#P1` at `T2`. -/
def latT2 : Item Unit := latestItem "patient#P1" "email" (FVal.s "v2") FVal.null "" "T2" ""

/-- A `LATEST` item for the same `(PK, SK)` at the older `T1`. -/
def latT1 : Item Unit := latestItem "patient#P1" "email" (FVal.s "v1") FVal.null "" "T1" ""

/-- A `LATEST` item tying `latT1` on `(PK, SK)` and `occurredAt` but
carrying a different value. -/
def latT1Tie : Item Unit := latestItem "patient#P1" "email" (FVal.s "v2") FVal.null "" "T1" ""

/-- A `HISTORY` item for `email` of `patient#P1` at `T1`. -/
def histT1 : Item Unit := historyItem "patient#P1" "email" (FVal.s "v1") FVal.null "" "T1" ""

/-- A mixed candidate list (current-state, latest and history items with
pairwise distinct keys) exercising both deduplication functions. -/
def dedupSample : List (Item Unit) := [itemT2, latT2, histT1]

/-! ### Dictionary lemmas -/

theorem dictLookup_eq_none_iff {d : List (Key V × Item V)} {k : Key V} :
    dictLookup d k = none ↔ k ∉ d.map Prod.fst := by
  induction d with
  | nil => simp [dictLookup]
  | cons p rest ih =>
    obtain ⟨k1, x⟩ := p
    by_cases h : k1 = k
    · subst h; simp [dictLookup]
    · simp [dictLookup, h, ih, Ne.symm h]

theorem dictUpdate_map_fst (d : List (Key V × Item V)) (k : Key V) (it : Item V) :
    (dictUpdate d k it).map Prod.fst = d.map Prod.fst := by
  simp only [dictUpdate, List.map_map]
  apply List.map_congr_left
  intro p _
  by_cases h : p.1 = k
  · simp [Function.comp, h]
  · simp [Function.comp, h]

theorem mem_dictUpdate {d : List (Key V × Item V)} {k : Key V} {it : Item V}
    {p : Key V × Item V} (h : p ∈ dictUpdate d k it) : p = (k, it) ∨ p ∈ d := by
  simp only [dictUpdate, List.mem_map] at h
  obtain ⟨q, hq, rfl⟩ := h
  by_cases hqk : q.1 = k
  · simp [hqk]
  · simp [hqk, hq]

/-! ### Invariants of the `_deduplicate_items` loop -/

theorem dedupStep_inv {d d2 : List (Key V × Item V)} {it : Item V}
    (hent : ∀ p ∈ d, itemKey p.2 = Except.ok p.1)
    (hnd : (d.map Prod.fst).Nodup)
    (h : dedupStep d it = .ok d2) :
    (∀ p ∈ d2, itemKey p.2 = Except.ok p.1) ∧ (d2.map Prod.fst).Nodup := by
  unfold dedupStep at h
  split at h
  · exact absurd h (by simp)
  next key hik =>
    split at h
    next hdl =>
      injection h with h2
      subst h2
      constructor
      · intro p hp
        rcases List.mem_append.mp hp with hp | hp
        · exact hent p hp
        · simp at hp; subst hp; exact hik
      · have hkey : key ∉ d.map Prod.fst := dictLookup_eq_none_iff.mp hdl
        simp [List.nodup_append, hnd, hkey]
    next old hdl =>
      split at h
      · exact absurd h (by simp)
      next gt hgt =>
        injection h with h2
        subst h2
        constructor
        · intro p hp
          by_cases hb : gt = true
          · rw [if_pos hb] at hp
            rcases mem_dictUpdate hp with hp | hp
            · subst hp; exact hik
            · exact hent p hp
          · rw [if_neg hb] at hp; exact hent p hp
        · by_cases hb : gt = true
          · rw [if_pos hb, dictUpdate_map_fst]; exact hnd
          · rw [if_neg hb]; exact hnd

theorem dedupLoop_inv {items : List (Item V)} :
    ∀ {d d2 : List (Key V × Item V)},
    (∀ p ∈ d, itemKey p.2 = Except.ok p.1) → (d.map Prod.fst).Nodup →
    dedupLoop items d = .ok d2 →
    (∀ p ∈ d2, itemKey p.2 = Except.ok p.1) ∧ (d2.map Prod.fst).Nodup := by
  induction items with
  | nil =>
    intro d d2 hent hnd h
    injection h with h2
    subst h2
    exact ⟨hent, hnd⟩
  | cons it rest ih =>
    intro d d2 hent hnd h
    unfold dedupLoop at h
    split at h
    · exact absurd h (by simp)
    next d1 hstep =>
      obtain ⟨hent1, hnd1⟩ := dedupStep_inv hent hnd hstep
      exact ih hent1 hnd1 h

/-- Rerunning the `_deduplicate_items` loop over an already-deduplicated
dictionary inserts every entry afresh, in order. -/
theorem dedupLoop_replay :
    ∀ (l acc : List (Key V × Item V)),
    (∀ p ∈ l, itemKey p.2 = Except.ok p.1) →
    (acc.map Prod.fst ++ l.map Prod.fst).Nodup →
    dedupLoop (l.map Prod.snd) acc = .ok (acc ++ l) := by
  intro l
  induction l with
  | nil => intro acc _ _; simp [dedupLoop]
  | cons p rest ih =>
    intro acc hent hnd
    obtain ⟨key, it⟩ := p
    have hik : itemKey it = Except.ok key := hent (key, it) (by simp)
    have hkey : key ∉ acc.map Prod.fst := by
      intro hmem
      have := (List.nodup_append.mp hnd).2.2
      exact this hmem (by simp)
    have hdl : dictLookup acc key = none := dictLookup_eq_none_iff.mpr hkey
    simp only [List.map_cons]
    unfold dedupLoop dedupStep
    simp only [hik, hdl]
    have hnd2 : ((acc ++ [(key, it)]).map Prod.fst ++ rest.map Prod.fst).Nodup := by
      have : acc.map Prod.fst ++ (key :: rest.map Prod.fst)
          = (acc ++ [(key, it)]).map Prod.fst ++ rest.map Prod.fst := by
        simp
      rw [← this]
      simpa using hnd
    have := ih (acc ++ [(key, it)]) (fun q hq => hent q (List.mem_cons_of_mem _ hq)) hnd2
    rw [this]
    simp

theorem dedupStep_mem {d d2 : List (Key V × Item V)} {it : Item V}
    (h : dedupStep d it = .ok d2) : ∀ p ∈ d2, p ∈ d ∨ p.2 = it := by
  unfold dedupStep at h
  split at h
  · exact absurd h (by simp)
  next key hik =>
    split at h
    next hdl =>
      injection h with h2; subst h2
      intro p hp
      rcases List.mem_append.mp hp with hp | hp
      · exact Or.inl hp
      · simp at hp; subst hp; simp
    next old hdl =>
      split at h
      · exact absurd h (by simp)
      next gt hgt =>
        injection h with h2; subst h2
        intro p hp
        by_cases hb : gt = true
        · rw [if_pos hb] at hp
          rcases mem_dictUpdate hp with hp | hp
          · subst hp; simp
          · exact Or.inl hp
        · rw [if_neg hb] at hp; exact Or.inl hp

theorem dedupLoop_mem {items : List (Item V)} :
    ∀ {d d2 : List (Key V × Item V)}, dedupLoop items d = .ok d2 →
    ∀ p ∈ d2, p ∈ d ∨ p.2 ∈ items := by
  induction items with
  | nil =>
    intro d d2 h p hp
    injection h with h2; subst h2
    exact Or.inl hp
  | cons it rest ih =>
    intro d d2 h p hp
    unfold dedupLoop at h
    split at h
    · exact absurd h (by simp)
    next d1 hstep =>
      rcases ih h p hp with hp1 | hp1
      · rcases dedupStep_mem hstep p hp1 with hp2 | hp2
        · exact Or.inl hp2
        · exact Or.inr (by simp [hp2])
      · exact Or.inr (List.mem_cons_of_mem _ hp1)

/-! ### Invariants of the `_deduplicate_latest_records_only` loop -/

theorem dedupLatestStep_inv {acc acc2 : List (Item V) × List (Key V × Item V)}
    {it : Item V}
    (hh : ∀ a ∈ acc.1, recordTypeOf a = FVal.s "HISTORY")
    (hent : ∀ p ∈ acc.2, itemKey p.2 = Except.ok p.1 ∧
      recordTypeOf p.2 = FVal.s "LATEST")
    (hnd : (acc.2.map Prod.fst).Nodup)
    (h : dedupLatestStep acc it = .ok acc2) :
    (∀ a ∈ acc2.1, recordTypeOf a = FVal.s "HISTORY") ∧
    (∀ p ∈ acc2.2, itemKey p.2 = Except.ok p.1 ∧
      recordTypeOf p.2 = FVal.s "LATEST") ∧
    (acc2.2.map Prod.fst).Nodup := by
  unfold dedupLatestStep at h
  split at h
  next hrt =>
    injection h with h2; subst h2
    refine ⟨?_, hent, hnd⟩
    intro a ha
    rcases List.mem_append.mp ha with ha | ha
    · exact hh a ha
    · simp at ha; subst ha; exact hrt
  next hrt1 =>
    split at h
    next hrt2 =>
      split at h
      · exact absurd h (by simp)
      next key hik =>
        split at h
        next hdl =>
          injection h with h2; subst h2
          refine ⟨hh, ?_, ?_⟩
          · intro p hp
            rcases List.mem_append.mp hp with hp | hp
            · exact hent p hp
            · simp at hp; subst hp; exact ⟨hik, hrt2⟩
          · have hkey : key ∉ acc.2.map Prod.fst := dictLookup_eq_none_iff.mp hdl
            simp [List.nodup_append, hnd, hkey]
        next old hdl =>
          split at h
          · exact absurd h (by simp)
          next gt hgt =>
            injection h with h2; subst h2
            refine ⟨hh, ?_, ?_⟩
            · intro p hp
              by_cases hb : gt = true
              · rw [if_pos hb] at hp
                rcases mem_dictUpdate hp with hp | hp
                · subst hp; exact ⟨hik, hrt2⟩
                · exact hent p hp
              · rw [if_neg hb] at hp; exact hent p hp
            · by_cases hb : gt = true
              · show ((if gt = true then dictUpdate acc.2 key it
                    else acc.2).map Prod.fst).Nodup
                rw [if_pos hb, dictUpdate_map_fst]; exact hnd
              · show ((if gt = true then dictUpdate acc.2 key it
                    else acc.2).map Prod.fst).Nodup
                rw [if_neg hb]; exact hnd
    next hrt2 =>
      injection h with h2; subst h2
      exact ⟨hh, hent, hnd⟩

theorem dedupLatestLoop_inv {items : List (Item V)} :
    ∀ {acc acc2 : List (Item V) × List (Key V × Item V)},
    (∀ a ∈ acc.1, recordTypeOf a = FVal.s "HISTORY") →
    (∀ p ∈ acc.2, itemKey p.2 = Except.ok p.1 ∧
      recordTypeOf p.2 = FVal.s "LATEST") →
    (acc.2.map Prod.fst).Nodup →
    dedupLatestLoop items acc = .ok acc2 →
    (∀ a ∈ acc2.1, recordTypeOf a = FVal.s "HISTORY") ∧
    (∀ p ∈ acc2.2, itemKey p.2 = Except.ok p.1 ∧
      recordTypeOf p.2 = FVal.s "LATEST") ∧
    (acc2.2.map Prod.fst).Nodup := by
  induction items with
  | nil =>
    intro acc acc2 hh hent hnd h
    injection h with h2; subst h2
    exact ⟨hh, hent, hnd⟩
  | cons it rest ih =>
    intro acc acc2 hh hent hnd h
    unfold dedupLatestLoop at h
    split at h
    · exact absurd h (by simp)
    next acc1 hstep =>
      obtain ⟨hh1, hent1, hnd1⟩ := dedupLatestStep_inv hh hent hnd hstep
      exact ih hh1 hent1 hnd1 h

/-- A run of history-classified items only moves them, in order, onto the
history accumulator. -/
theorem dedupLatestLoop_hist_then :
    ∀ (hl : List (Item V)), (∀ a ∈ hl, recordTypeOf a = FVal.s "HISTORY") →
    ∀ (l2 : List (Item V)) (acc : List (Item V) × List (Key V × Item V)),
    dedupLatestLoop (hl ++ l2) acc = dedupLatestLoop l2 (acc.1 ++ hl, acc.2) := by
  intro hl
  induction hl with
  | nil => intro _ l2 acc; simp
  | cons a rest ih =>
    intro hall l2 acc
    have hrt : recordTypeOf a = FVal.s "HISTORY" := hall a (by simp)
    have hstep : dedupLatestStep acc a = .ok (acc.1 ++ [a], acc.2) := by
      unfold dedupLatestStep
      rw [if_pos hrt]
    have ih2 := ih (fun b hb => hall b (List.mem_cons_of_mem _ hb)) l2
      (acc.1 ++ [a], acc.2)
    simp only [List.cons_append]
    conv_lhs => rw [dedupLatestLoop]
    rw [hstep]
    show dedupLatestLoop (rest ++ l2) (acc.1 ++ [a], acc.2) = _
    rw [ih2]
    congr 1
    simp

/-- Rerunning the loop over already-deduplicated `LATEST` entries inserts
each afresh, in order. -/
theorem dedupLatestLoop_replay :
    ∀ (l : List (Key V × Item V)) (acc : List (Item V) × List (Key V × Item V)),
    (∀ p ∈ l, itemKey p.2 = Except.ok p.1 ∧
      recordTypeOf p.2 = FVal.s "LATEST") →
    (acc.2.map Prod.fst ++ l.map Prod.fst).Nodup →
    dedupLatestLoop (l.map Prod.snd) acc = .ok (acc.1, acc.2 ++ l) := by
  intro l
  induction l with
  | nil => intro acc _ _; simp [dedupLatestLoop]
  | cons p rest ih =>
    intro acc hent hnd
    obtain ⟨key, it⟩ := p
    obtain ⟨hik, hrt⟩ := hent (key, it) (by simp)
    have hkey : key ∉ acc.2.map Prod.fst := by
      intro hmem
      exact (List.nodup_append.mp hnd).2.2 hmem (by simp)
    have hdl : dictLookup acc.2 key = none := dictLookup_eq_none_iff.mpr hkey
    have hstep : dedupLatestStep acc it = .ok (acc.1, acc.2 ++ [(key, it)]) := by
      unfold dedupLatestStep
      simp [hrt, hik, hdl]
    have hnd2 : ((acc.2 ++ [(key, it)]).map Prod.fst ++ rest.map Prod.fst).Nodup := by
      have : acc.2.map Prod.fst ++ (key :: rest.map Prod.fst)
          = (acc.2 ++ [(key, it)]).map Prod.fst ++ rest.map Prod.fst := by
        simp
      rw [← this]
      simpa using hnd
    have hrec := ih (acc.1, acc.2 ++ [(key, it)])
      (fun q hq => hent q (List.mem_cons_of_mem _ hq)) hnd2
    simp only at hrec
    simp only [List.map_cons]
    conv_lhs => rw [dedupLatestLoop]
    rw [hstep]
    show dedupLatestLoop (rest.map Prod.snd) (acc.1, acc.2 ++ [(key, it)]) = _
    rw [hrec]
    simp

/-- The history side of the accumulator is exactly the input filtered by
the default-`HISTORY` classification, in input order. -/
theorem dedupLatestLoop_histFilter {items : List (Item V)} :
    ∀ {acc acc2 : List (Item V) × List (Key V × Item V)},
    dedupLatestLoop items acc = .ok acc2 →
    acc2.1 = acc.1 ++ items.filter isHistoryByDefault := by
  induction items with
  | nil => intro acc acc2 h; injection h with h2; subst h2; simp
  | cons it rest ih =>
    intro acc acc2 h
    unfold dedupLatestLoop at h
    split at h
    · exact absurd h (by simp)
    next acc1 hstep =>
      have hrec := ih h
      unfold dedupLatestStep at hstep
      split at hstep
      next hrt =>
        injection hstep with h2; subst h2
        rw [hrec]
        simp [List.filter_cons, isHistoryByDefault, hrt]
      next hrt1 =>
        split at hstep
        next hrt2 =>
          split at hstep
          · exact absurd hstep (by simp)
          next key hik =>
            split at hstep
            next hdl =>
              injection hstep with h2; subst h2
              rw [hrec]
              simp [List.filter_cons, isHistoryByDefault, hrt1]
            next old hdl =>
              split at hstep
              · exact absurd hstep (by simp)
              next gt hgt =>
                injection hstep with h2; subst h2
                rw [hrec]
                simp [List.filter_cons, isHistoryByDefault, hrt1]
        next hrt2 =>
          injection hstep with h2; subst h2
          rw [hrec]
          simp [List.filter_cons, isHistoryByDefault, hrt1]

theorem dedupLatestStep_mem {acc acc2 : List (Item V) × List (Key V × Item V)}
    {it : Item V} (h : dedupLatestStep acc it = .ok acc2) :
    (∀ a ∈ acc2.1, a ∈ acc.1 ∨ a = it) ∧
    (∀ p ∈ acc2.2, p ∈ acc.2 ∨ p.2 = it) := by
  unfold dedupLatestStep at h
  split at h
  next hrt =>
    injection h with h2; subst h2
    constructor
    · intro a ha
      rcases List.mem_append.mp ha with ha | ha
      · exact Or.inl ha
      · simp at ha; subst ha; simp
    · intro p hp; exact Or.inl hp
  next hrt1 =>
    split at h
    next hrt2 =>
      split at h
      · exact absurd h (by simp)
      next key hik =>
        split at h
        next hdl =>
          injection h with h2; subst h2
          constructor
          · intro a ha; exact Or.inl ha
          · intro p hp
            rcases List.mem_append.mp hp with hp | hp
            · exact Or.inl hp
            · simp at hp; subst hp; simp
        next old hdl =>
          split at h
          · exact absurd h (by simp)
          next gt hgt =>
            injection h with h2; subst h2
            constructor
            · intro a ha; exact Or.inl ha
            · intro p hp
              by_cases hb : gt = true
              · rw [if_pos hb] at hp
                rcases mem_dictUpdate hp with hp | hp
                · subst hp; simp
                · exact Or.inl hp
              · rw [if_neg hb] at hp; exact Or.inl hp
    next hrt2 =>
      injection h with h2; subst h2
      exact ⟨fun a ha => Or.inl ha, fun p hp => Or.inl hp⟩

theorem dedupLatestLoop_mem {items : List (Item V)} :
    ∀ {acc acc2 : List (Item V) × List (Key V × Item V)},
    dedupLatestLoop items acc = .ok acc2 →
    (∀ a ∈ acc2.1, a ∈ acc.1 ∨ a ∈ items) ∧
    (∀ p ∈ acc2.2, p ∈ acc.2 ∨ p.2 ∈ items) := by
  induction items with
  | nil =>
    intro acc acc2 h
    injection h with h2; subst h2
    exact ⟨fun a ha => Or.inl ha, fun p hp => Or.inl hp⟩
  | cons it rest ih =>
    intro acc acc2 h
    unfold dedupLatestLoop at h
    split at h
    · exact absurd h (by simp)
    next acc1 hstep =>
      obtain ⟨ihh, ihd⟩ := ih h
      obtain ⟨sh, sd⟩ := dedupLatestStep_mem hstep
      constructor
      · intro a ha
        rcases ihh a ha with ha1 | ha1
        · rcases sh a ha1 with ha2 | ha2
          · exact Or.inl ha2
          · exact Or.inr (by simp [ha2])
        · exact Or.inr (List.mem_cons_of_mem _ ha1)
      · intro p hp
        rcases ihd p hp with hp1 | hp1
        · rcases sd p hp1 with hp2 | hp2
          · exact Or.inl hp2
          · exact Or.inr (by simp [hp2])
        · exact Or.inr (List.mem_cons_of_mem _ hp1)

/-! ### Small stepping and classification helpers -/

theorem dedupLoop_cons (it : Item V) (rest : List (Item V))
    {d d1 : List (Key V × Item V)} (h : dedupStep d it = .ok d1) :
    dedupLoop (it :: rest) d = dedupLoop rest d1 := by
  conv_lhs => rw [dedupLoop]
  rw [h]

theorem dedupLatestLoop_cons (it : Item V) (rest : List (Item V))
    {acc acc1 : List (Item V) × List (Key V × Item V)}
    (h : dedupLatestStep acc it = .ok acc1) :
    dedupLatestLoop (it :: rest) acc = dedupLatestLoop rest acc1 := by
  conv_lhs => rw [dedupLatestLoop]
  rw [h]

theorem hasHistory_imp_isHistory {it : Item V}
    (h : hasHistoryRecordType it = true) : isHistoryByDefault it = true := by
  unfold hasHistoryRecordType at h
  rw [decide_eq_true_eq] at h
  unfold isHistoryByDefault recordTypeOf
  rw [h]
  simp

theorem hasHistory_eq_false_of_latest {it : Item V}
    (h : recordTypeOf it = FVal.s "LATEST") :
    hasHistoryRecordType it = false := by
  unfold recordTypeOf at h
  unfold hasHistoryRecordType
  cases hd : dget it "recordType" with
  | none => rw [hd] at h; simp at h
  | some x =>
    rw [hd] at h
    simp only [Option.getD_some] at h
    subst h
    simp

/-- Filtering the default-`HISTORY` classified sublist by the literal
`recordType = HISTORY` test gives the same result as filtering the whole
list, because the literal test implies the default-based one. -/
theorem filter_hasHistory_filter (xs : List (Item V)) :
    (xs.filter isHistoryByDefault).filter hasHistoryRecordType
      = xs.filter hasHistoryRecordType := by
  induction xs with
  | nil => simp
  | cons a rest ih =>
    by_cases hq : isHistoryByDefault a = true
    · by_cases hp : hasHistoryRecordType a = true
      · simp [List.filter_cons, hq, hp, ih]
      · simp [List.filter_cons, hq, hp, ih]
    · have hp : hasHistoryRecordType a = false := by
        cases hcases : hasHistoryRecordType a with
        | false => rfl
        | true => exact absurd (hasHistory_imp_isHistory hcases) hq
      simp [List.filter_cons, hq, hp, ih]

/-! ### Handler loop helpers -/

theorem handlerLoop_cons_skip (r : StreamRecord V) (rest : List (StreamRecord V))
    (acc : List (Item V) × List (Item V))
    (h : ¬(r.eventName = "INSERT" ∨ r.eventName = "MODIFY")) :
    handlerLoop (r :: rest) acc = handlerLoop rest acc := by
  conv_lhs => rw [handlerLoop]
  rw [if_neg h]

theorem handlerLoop_cons_ok (r : StreamRecord V) (rest : List (StreamRecord V))
    (acc : List (Item V) × List (Item V)) {cs alu : List (Item V)}
    (he : r.eventName = "INSERT" ∨ r.eventName = "MODIFY")
    (h : processEventItem r.newImage = .ok (cs, alu)) :
    handlerLoop (r :: rest) acc = handlerLoop rest (acc.1 ++ cs, acc.2 ++ alu) := by
  conv_lhs => rw [handlerLoop]
  rw [if_pos he, h]

theorem handlerLoop_cons_error (r : StreamRecord V) (rest : List (StreamRecord V))
    (acc : List (Item V) × List (Item V)) {msg : String}
    (he : r.eventName = "INSERT" ∨ r.eventName = "MODIFY")
    (h : processEventItem r.newImage = .error msg) :
    handlerLoop (r :: rest) acc = .error msg := by
  conv_lhs => rw [handlerLoop]
  rw [if_pos he, h]

theorem handlerLoop_append (l1 l2 : List (StreamRecord V)) :
    ∀ acc, handlerLoop (l1 ++ l2) acc =
      match handlerLoop l1 acc with
      | .error e => .error e
      | .ok acc2 => handlerLoop l2 acc2 := by
  induction l1 with
  | nil => intro acc; simp [handlerLoop]
  | cons r rest ih =>
    intro acc
    by_cases he : r.eventName = "INSERT" ∨ r.eventName = "MODIFY"
    · cases hpe : processEventItem r.newImage with
      | error e =>
        rw [List.cons_append, handlerLoop_cons_error r (rest ++ l2) acc he hpe,
          handlerLoop_cons_error r rest acc he hpe]
      | ok pr =>
        obtain ⟨cs, alu⟩ := pr
        rw [List.cons_append, handlerLoop_cons_ok r (rest ++ l2) acc he hpe,
          handlerLoop_cons_ok r rest acc he hpe]
        exact ih _
    · rw [List.cons_append, handlerLoop_cons_skip r (rest ++ l2) acc he,
        handlerLoop_cons_skip r rest acc he]
      exact ih acc

/-- An event item missing any of the four required fields makes the
per-event body raise a `KeyError`. -/
theorem processEventItem_missing {e : EventItem V}
    (h : e.resourceType = none ∨ e.resourceId = none ∨ e.changes = none ∨
      e.occurredAt = none) :
    ∃ msg, processEventItem e = .error msg := by
  unfold processEventItem
  cases hrt : e.resourceType with
  | none => exact ⟨_, rfl⟩
  | some rt =>
    cases hri : e.resourceId with
    | none => exact ⟨_, rfl⟩
    | some ri =>
      cases hch : e.changes with
      | none => exact ⟨_, rfl⟩
      | some ch =>
        cases hoc : e.occurredAt with
        | none => exact ⟨_, rfl⟩
        | some oc =>
          rw [hrt, hri, hch, hoc] at h
          simp at h

/-! ### Claim C1 -/

/-- C1 counterexample: on the scenario-1 batch the three candidate
records carry the sort keys `ATTR#email`, `ATTR#email#T1` and
`ATTR#email#LATEST`; none of them carries the claimed sort key
`LATEST#email` (nor `HISTORY#email#T1`). -/
theorem c1_claimed_sort_keys_absent :
    handlerLoop batch1 ([], []) =
      .ok ([c1CurrentItem], [c1HistoryItem, c1LatestItem]) ∧
    (∀ it ∈ [c1CurrentItem, c1HistoryItem, c1LatestItem],
      dget it "SK" ≠ some (FVal.s "LATEST#email") ∧
      dget it "SK" ≠ some (FVal.s "HISTORY#email#T1")) := by
  refine ⟨rfl, ?_⟩
  decide

/-- C1 (amended): a batch with a single MODIFY record for resourceType
`patient`, resourceId `P1`, one change of `email`, occurredAt `T1` and no
source or programYear produces exactly 3 candidate records, all with PK
`patient#P1`: the current-state record with SK `ATTR#email` and the
attribute-last-updated records with SK `ATTR#email#T1` (HISTORY) and SK
`ATTR#email#LATEST` (LATEST). -/
theorem c1_scenario1_three_records :
    handler batch1 =
      .ok ⟨some [c1CurrentItem], some [c1HistoryItem, c1LatestItem]⟩ ∧
    [c1CurrentItem, c1HistoryItem, c1LatestItem].length = 3 ∧
    (∀ it ∈ [c1CurrentItem, c1HistoryItem, c1LatestItem],
      dget it "PK" = some (FVal.s "patient#P1")) ∧
    dget c1CurrentItem "SK" = some (FVal.s "ATTR#email") ∧
    dget c1HistoryItem "SK" = some (FVal.s "ATTR#email#T1") ∧
    dget c1LatestItem "SK" = some (FVal.s "ATTR#email#LATEST") := by
  refine ⟨rfl, rfl, ?_, rfl, rfl, rfl⟩
  decide

/-! ### Claim C2 -/

/-- C2 counterexample: an event with one changed attribute, a non-empty
source `ETL` and `programYearName` present yields 4 candidate records,
not the 5 the claim asserts. -/
theorem c2_program_year_adds_no_record :
    candidateCount eventSY = .ok 4 ∧ candidateCount eventSY ≠ .ok 5 := by
  refine ⟨rfl, ?_⟩
  decide

/-- C2 (amended): for an event with all required fields, a non-empty
source and any (present or absent) `programYearName`, the fan-out emits
exactly 4 candidate records per changed attribute: one current-state
record plus three attribute-last-updated records. The presence of
`programYearName` never changes the count. -/
theorem c2_four_per_changed_attribute (e : EventItem V) (rt ri occ s : String)
    (cs : List (String × ChangePayload V))
    (h1 : e.resourceType = some rt) (h2 : e.resourceId = some ri)
    (h3 : e.changes = some cs) (h4 : e.occurredAt = some occ)
    (h5 : e.source = some s) (h6 : s ≠ "")
    (h7 : (cs.map Prod.fst).Nodup) :
    candidateCount e = .ok (4 * cs.length) := by
  unfold candidateCount processEventItem
  rw [h1, h2, h3, h4, h5]
  simp [Except.map, List.length_flatMap, Function.comp_def, h6, List.map_const',
    List.sum_replicate]
  omega

/-- C2 witness at a concrete event with `programYearName` present. -/
theorem c2_witness :
    ("ETL" : String) ≠ "" ∧ candidateCount eventSY = .ok (4 * 1) :=
  ⟨by decide,
   c2_four_per_changed_attribute eventSY "patient" "P2" "T3" "ETL"
     [("email", ⟨some (FVal.s "b@x.com")⟩)] rfl rfl rfl rfl rfl (by decide)
     (by decide)⟩

/-! ### Two-candidate deduplication helpers -/

/-- When the second of two same-key candidates does not compare strictly
greater, both deduplication functions keep the first. -/
theorem dedup_pair_keeps_first (a b : Item V) (k : Key V)
    (hka : itemKey a = .ok k) (hkb : itemKey b = .ok k)
    (hgba : occGt b a = .ok false) :
    deduplicate_items [a, b] = .ok [a] ∧
    (recordTypeOf a = FVal.s "LATEST" → recordTypeOf b = FVal.s "LATEST" →
      deduplicate_latest_records_only [a, b] = .ok [a]) := by
  have s1 : dedupStep ([] : List (Key V × Item V)) a = .ok [(k, a)] := by
    unfold dedupStep
    simp [hka, dictLookup]
  have s2 : dedupStep [(k, a)] b = .ok [(k, a)] := by
    unfold dedupStep
    simp [hkb, dictLookup, hgba]
  constructor
  · unfold deduplicate_items
    rw [dedupLoop_cons a [b] s1, dedupLoop_cons b [] s2]
    rfl
  · intro hra hrb
    have t1 : dedupLatestStep (([], []) :
        List (Item V) × List (Key V × Item V)) a = .ok ([], [(k, a)]) := by
      unfold dedupLatestStep
      simp [hra, hka, dictLookup]
    have t2 : dedupLatestStep (([], [(k, a)]) :
        List (Item V) × List (Key V × Item V)) b = .ok ([], [(k, a)]) := by
      unfold dedupLatestStep
      simp [hrb, hkb, dictLookup, hgba]
    unfold deduplicate_latest_records_only
    rw [dedupLatestLoop_cons a [b] t1, dedupLatestLoop_cons b [] t2]
    rfl

/-- When the second of two same-key candidates compares strictly greater,
both deduplication functions replace the first by the second. -/
theorem dedup_pair_second_wins (a b : Item V) (k : Key V)
    (hka : itemKey a = .ok k) (hkb : itemKey b = .ok k)
    (hgab : occGt b a = .ok true) :
    deduplicate_items [a, b] = .ok [b] ∧
    (recordTypeOf a = FVal.s "LATEST" → recordTypeOf b = FVal.s "LATEST" →
      deduplicate_latest_records_only [a, b] = .ok [b]) := by
  have s1 : dedupStep ([] : List (Key V × Item V)) a = .ok [(k, a)] := by
    unfold dedupStep
    simp [hka, dictLookup]
  have s2 : dedupStep [(k, a)] b = .ok [(k, b)] := by
    unfold dedupStep
    simp [hkb, dictLookup, hgab, dictUpdate]
  constructor
  · unfold deduplicate_items
    rw [dedupLoop_cons a [b] s1, dedupLoop_cons b [] s2]
    rfl
  · intro hra hrb
    have t1 : dedupLatestStep (([], []) :
        List (Item V) × List (Key V × Item V)) a = .ok ([], [(k, a)]) := by
      unfold dedupLatestStep
      simp [hra, hka, dictLookup]
    have t2 : dedupLatestStep (([], [(k, a)]) :
        List (Item V) × List (Key V × Item V)) b = .ok ([], [(k, b)]) := by
      unfold dedupLatestStep
      simp [hrb, hkb, dictLookup, hgab, dictUpdate]
    unfold deduplicate_latest_records_only
    rw [dedupLatestLoop_cons a [b] t1, dedupLatestLoop_cons b [] t2]
    rfl

/-! ### Claim C3 -/

/-- C3 (confirmed): for two candidates sharing `(PK, SK)` where one has a
strictly greater `occurredAt`, both deduplication functions keep the
record with the strictly greater `occurredAt`, whichever of the two comes
first in the input. -/
theorem c3_strictly_newer_survives (a b : Item V) (k : Key V) (ta tb : String)
    (hka : itemKey a = .ok k) (hkb : itemKey b = .ok k)
    (hoa : dget a "occurredAt" = some (FVal.s ta))
    (hob : dget b "occurredAt" = some (FVal.s tb))
    (hlt : tb < ta) :
    deduplicate_items [a, b] = .ok [a] ∧
    deduplicate_items [b, a] = .ok [a] ∧
    (recordTypeOf a = FVal.s "LATEST" → recordTypeOf b = FVal.s "LATEST" →
      deduplicate_latest_records_only [a, b] = .ok [a] ∧
      deduplicate_latest_records_only [b, a] = .ok [a]) := by
  have hgab : occGt a b = .ok true := by
    unfold occGt getField
    simp [hoa, hob, hlt]
  have hgba : occGt b a = .ok false := by
    unfold occGt getField
    simp [hoa, hob, lt_asymm hlt]
  obtain ⟨d1, d2⟩ := dedup_pair_keeps_first a b k hka hkb hgba
  obtain ⟨e1, e2⟩ := dedup_pair_second_wins b a k hkb hka hgab
  exact ⟨d1, e1, fun hra hrb => ⟨d2 hra hrb, e2 hrb hra⟩⟩

/-- C3 witness at two concrete `LATEST` items with timestamps `T2 > T1`. -/
theorem c3_witness :
    ("T1" : String) < "T2" ∧
    (deduplicate_items [latT2, latT1] = .ok [latT2] ∧
     deduplicate_items [latT1, latT2] = .ok [latT2] ∧
     (recordTypeOf latT2 = FVal.s "LATEST" → recordTypeOf latT1 = FVal.s "LATEST" →
       deduplicate_latest_records_only [latT2, latT1] = .ok [latT2] ∧
       deduplicate_latest_records_only [latT1, latT2] = .ok [latT2])) :=
  ⟨by rw [String.lt_iff_toList_lt]; decide,
   c3_strictly_newer_survives latT2 latT1
     (FVal.s "patient#P1", FVal.s "ATTR#email#LATEST") "T2" "T1"
     rfl rfl rfl rfl (by rw [String.lt_iff_toList_lt]; decide)⟩

/-! ### Claim C4 -/

/-- C4 counterexample: two candidates with the same `(PK, SK)` and equal
`occurredAt` — both deduplication functions keep the candidate that came
first in processing order, not the one encountered last as the claim
states. -/
theorem c4_tie_keeps_first_not_last :
    deduplicate_items [itemT1, itemT1Tie] = .ok [itemT1] ∧
    deduplicate_items [itemT1, itemT1Tie] ≠ .ok [itemT1Tie] ∧
    deduplicate_latest_records_only [latT1, latT1Tie] = .ok [latT1] ∧
    deduplicate_latest_records_only [latT1, latT1Tie] ≠ .ok [latT1Tie] := by
  have hocc1 : occGt itemT1Tie itemT1 = .ok false := by
    unfold occGt getField
    simp [show dget itemT1Tie "occurredAt" = some (FVal.s "T1") from rfl,
      show dget itemT1 "occurredAt" = some (FVal.s "T1") from rfl]
  have hocc2 : occGt latT1Tie latT1 = .ok false := by
    unfold occGt getField
    simp [show dget latT1Tie "occurredAt" = some (FVal.s "T1") from rfl,
      show dget latT1 "occurredAt" = some (FVal.s "T1") from rfl]
  obtain ⟨h1, _⟩ := dedup_pair_keeps_first itemT1 itemT1Tie
    (FVal.s "patient#P1", FVal.s "ATTR#email") rfl rfl hocc1
  obtain ⟨_, h2⟩ := dedup_pair_keeps_first latT1 latT1Tie
    (FVal.s "patient#P1", FVal.s "ATTR#email#LATEST") rfl rfl hocc2
  have h2 := h2 rfl rfl
  refine ⟨h1, ?_, h2, ?_⟩
  · intro hcontra
    rw [h1] at hcontra
    injection hcontra with hl
    simp at hl
    exact absurd hl (by decide)
  · intro hcontra
    rw [h2] at hcontra
    injection hcontra with hl
    simp at hl
    exact absurd hl (by decide)

/-- C4 (amended): when two overwritable candidates share the same
`(PK, SK)` and are tied on `occurredAt`, the comparison is strict, so the
candidate encountered first in processing order survives. -/
theorem c4_tie_keeps_first (a b : Item V) (k : Key V) (t : String)
    (hka : itemKey a = .ok k) (hkb : itemKey b = .ok k)
    (hoa : dget a "occurredAt" = some (FVal.s t))
    (hob : dget b "occurredAt" = some (FVal.s t)) :
    deduplicate_items [a, b] = .ok [a] ∧
    (recordTypeOf a = FVal.s "LATEST" → recordTypeOf b = FVal.s "LATEST" →
      deduplicate_latest_records_only [a, b] = .ok [a]) := by
  have hgba : occGt b a = .ok false := by
    unfold occGt getField
    simp [hoa, hob]
  exact dedup_pair_keeps_first a b k hka hkb hgba

/-- C4 witness at two concrete `LATEST` items tied at `T1`. -/
theorem c4_witness :
    deduplicate_items [latT1, latT1Tie] = .ok [latT1] ∧
    (recordTypeOf latT1 = FVal.s "LATEST" → recordTypeOf latT1Tie = FVal.s "LATEST" →
      deduplicate_latest_records_only [latT1, latT1Tie] = .ok [latT1]) :=
  c4_tie_keeps_first latT1 latT1Tie
    (FVal.s "patient#P1", FVal.s "ATTR#email#LATEST") "T1" rfl rfl rfl rfl

/-! ### Claim C5 -/

/-- C5 (confirmed): deduplication is idempotent — rerunning either
deduplication function on its own output returns exactly that output
(same records, same order). -/
theorem c5_dedup_idempotent (xs ys zs : List (Item V))
    (h1 : deduplicate_items xs = .ok ys)
    (h2 : deduplicate_latest_records_only xs = .ok zs) :
    deduplicate_items ys = .ok ys ∧
    deduplicate_latest_records_only zs = .ok zs := by
  constructor
  · unfold deduplicate_items at h1 ⊢
    revert h1
    cases hl : dedupLoop xs [] with
    | error e => intro h1; exact absurd h1 (by simp)
    | ok d =>
      intro h1
      injection h1 with h1
      subst h1
      obtain ⟨hent, hnd⟩ := dedupLoop_inv (by simp) (by simp) hl
      rw [dedupLoop_replay d [] hent (by simpa using hnd)]
      simp
  · unfold deduplicate_latest_records_only at h2 ⊢
    revert h2
    cases hl : dedupLatestLoop xs ([], []) with
    | error e => intro h2; exact absurd h2 (by simp)
    | ok acc =>
      intro h2
      injection h2 with h2
      subst h2
      obtain ⟨hh, hent, hnd⟩ := dedupLatestLoop_inv (by simp) (by simp) (by simp) hl
      rw [dedupLatestLoop_hist_then acc.1 hh (acc.2.map Prod.snd) ([], [])]
      have hrepl := dedupLatestLoop_replay acc.2
        ((([] : List (Item V)), ([] : List (Key V × Item V))).1 ++ acc.1,
         (([] : List (Item V)), ([] : List (Key V × Item V))).2)
        hent (by simpa using hnd)
      rw [hrepl]
      simp

/-- C5 witness on a concrete mixed sample. -/
theorem c5_witness :
    (deduplicate_items dedupSample = .ok [itemT2, latT2, histT1] ∧
     deduplicate_latest_records_only dedupSample = .ok [itemT2, histT1, latT2]) ∧
    (deduplicate_items [itemT2, latT2, histT1] = .ok [itemT2, latT2, histT1] ∧
     deduplicate_latest_records_only [itemT2, histT1, latT2]
       = .ok [itemT2, histT1, latT2]) :=
  ⟨⟨rfl, rfl⟩, c5_dedup_idempotent dedupSample _ _ rfl rfl⟩

/-! ### Claim C6 -/

/-- C6 (confirmed): records whose `recordType` field is `HISTORY` pass
through `_deduplicate_latest_records_only` unmodified and in order, so in
particular their count is preserved. -/
theorem c6_history_never_dropped (xs ys : List (Item V))
    (h : deduplicate_latest_records_only xs = .ok ys) :
    ys.filter hasHistoryRecordType = xs.filter hasHistoryRecordType ∧
    (ys.filter hasHistoryRecordType).length
      = (xs.filter hasHistoryRecordType).length := by
  have main : ys.filter hasHistoryRecordType = xs.filter hasHistoryRecordType := by
    unfold deduplicate_latest_records_only at h
    revert h
    cases hl : dedupLatestLoop xs ([], []) with
    | error e => intro h; exact absurd h (by simp)
    | ok acc =>
      intro h
      injection h with h
      subst h
      obtain ⟨hh, hent, hnd⟩ := dedupLatestLoop_inv (by simp) (by simp) (by simp) hl
      have hfil := dedupLatestLoop_histFilter hl
      simp only [List.nil_append] at hfil
      rw [List.filter_append, hfil]
      have hlat : (acc.2.map Prod.snd).filter hasHistoryRecordType = [] := by
        rw [List.filter_eq_nil_iff]
        intro it hit
        obtain ⟨p, hp, rfl⟩ := List.mem_map.mp hit
        rw [hasHistory_eq_false_of_latest (hent p hp).2]
        simp
      rw [hlat, List.append_nil]
      exact filter_hasHistory_filter xs
  exact ⟨main, by rw [main]⟩

/-- C6 witness on a concrete mixed sample. -/
theorem c6_witness :
    [itemT2, histT1, latT2].filter hasHistoryRecordType
      = dedupSample.filter hasHistoryRecordType ∧
    ([itemT2, histT1, latT2].filter hasHistoryRecordType).length
      = (dedupSample.filter hasHistoryRecordType).length :=
  c6_history_never_dropped dedupSample _ rfl

/-! ### Claim C7 -/

/-- C7 counterexample: a batch whose first record is a MODIFY event
missing `occurredAt`, followed by a well-formed MODIFY record — the
invocation fails with a `KeyError` instead of skipping the bad event and
continuing, so the second record is never processed. -/
theorem c7_missing_field_aborts_batch :
    handler [(⟨"MODIFY", eventNoOccurredAt⟩ : StreamRecord Unit),
      ⟨"MODIFY", event1⟩] = .error "KeyError: occurredAt" := rfl

/-- C7 (amended): if a decoded INSERT/MODIFY event is missing a required
field (resourceType, resourceId, changes or occurredAt), the handler
raises a `KeyError` and the whole invocation fails; later records of the
batch are not processed. (The code skips only records with other change
kinds, and events with an empty `changes` mapping fan out to nothing.) -/
theorem c7_missing_field_fails_invocation (pre suf : List (StreamRecord V))
    (acc : List (Item V) × List (Item V)) (e : EventItem V)
    (hpre : handlerLoop pre ([], []) = .ok acc)
    (hbad : e.resourceType = none ∨ e.resourceId = none ∨ e.changes = none ∨
      e.occurredAt = none) :
    ∃ msg, handler (pre ++ ⟨"MODIFY", e⟩ :: suf) = .error msg := by
  obtain ⟨msg, hmsg⟩ := processEventItem_missing hbad
  refine ⟨msg, ?_⟩
  have hloop : handlerLoop (pre ++ ⟨"MODIFY", e⟩ :: suf) ([], []) = .error msg := by
    rw [handlerLoop_append pre (⟨"MODIFY", e⟩ :: suf) ([], []), hpre]
    exact handlerLoop_cons_error ⟨"MODIFY", e⟩ suf acc (Or.inr rfl) hmsg
  unfold handler
  rw [hloop]

/-- C7 witness: the one-record batch with the `occurredAt`-less event. -/
theorem c7_witness :
    ∃ msg, handler [(⟨"MODIFY", eventNoOccurredAt⟩ : StreamRecord Unit)]
      = .error msg :=
  c7_missing_field_fails_invocation [] [] ([], []) eventNoOccurredAt rfl
    (Or.inr (Or.inr (Or.inr rfl)))

/-! ### Claim C8 -/

/-- C8 counterexample: for the scenario-1 batch the PatientCurrentState
candidate carries neither `eventType`, nor `actorId`, nor `source` as a
field. -/
theorem c8_fields_not_copied :
    handlerLoop batch1 ([], []) =
      .ok ([c1CurrentItem], [c1HistoryItem, c1LatestItem]) ∧
    dget c1CurrentItem "eventType" = none ∧
    dget c1CurrentItem "actorId" = none ∧
    dget c1CurrentItem "source" = none :=
  ⟨rfl, rfl, rfl, rfl⟩

/-- C8 (amended): every candidate record carries the parent event's
`occurredAt`, and its `updatedBy` defaulted to the empty string, as
fields; no candidate record carries `eventType`, `actorId` or `source` as
a field (the source tag only ever appears embedded in a sort key). -/
theorem c8_record_field_contract (e : EventItem V) (cs alu : List (Item V))
    (occ : String) (hocc : e.occurredAt = some occ)
    (h : processEventItem e = .ok (cs, alu)) :
    ∀ it ∈ cs ++ alu,
      dget it "occurredAt" = some (FVal.s occ) ∧
      dget it "updatedBy" = some (FVal.s (e.updatedBy.getD "")) ∧
      dget it "eventType" = none ∧
      dget it "actorId" = none ∧
      dget it "source" = none := by
  obtain ⟨ort, ori, och, opy, optag, oub, osrc, ooc⟩ := e
  simp only at hocc h ⊢
  subst hocc
  rcases ort with _ | rt
  · exact absurd h (by simp [processEventItem])
  rcases ori with _ | ri
  · exact absurd h (by simp [processEventItem])
  rcases och with _ | ch
  · exact absurd h (by simp [processEventItem])
  unfold processEventItem at h
  simp only [Option.getD_some] at h
  injection h with h
  injection h with hcs halu
  subst hcs
  subst halu
  intro it hit
  rcases List.mem_append.mp hit with hit | hit
  · obtain ⟨ac, hac, rfl⟩ := List.mem_map.mp hit
    simp [currentStateItem, dget]
  · obtain ⟨ac, hac, hmem⟩ := List.mem_flatMap.mp hit
    by_cases hs : (osrc.getD "" : String) = ""
    · simp [hs] at hmem
      rcases hmem with rfl | rfl
      · simp [historyItem, dget]
      · simp [latestItem, dget]
    · simp [hs] at hmem
      rcases hmem with rfl | rfl | rfl
      · simp [historyItem, dget]
      · simp [latestItem, dget]
      · simp [sourceLatestItem, dget]

/-- C8 witness: the source-scoped latest record of the concrete event
with source and programYear set carries `occurredAt` and `updatedBy` but
none of `eventType`, `actorId`, `source`. -/
theorem c8_witness :
    dget (sourceLatestItem "patient#P2" "email" (FVal.s "b@x.com") (FVal.s "2025")
        "Centene" "T3" "u1" "ETL" : Item Unit) "occurredAt"
      = some (FVal.s "T3") ∧
    dget (sourceLatestItem "patient#P2" "email" (FVal.s "b@x.com") (FVal.s "2025")
        "Centene" "T3" "u1" "ETL" : Item Unit) "updatedBy"
      = some (FVal.s (eventSY.updatedBy.getD "")) ∧
    dget (sourceLatestItem "patient#P2" "email" (FVal.s "b@x.com") (FVal.s "2025")
        "Centene" "T3" "u1" "ETL" : Item Unit) "eventType" = none ∧
    dget (sourceLatestItem "patient#P2" "email" (FVal.s "b@x.com") (FVal.s "2025")
        "Centene" "T3" "u1" "ETL" : Item Unit) "actorId" = none ∧
    dget (sourceLatestItem "patient#P2" "email" (FVal.s "b@x.com") (FVal.s "2025")
        "Centene" "T3" "u1" "ETL" : Item Unit) "source" = none :=
  c8_record_field_contract eventSY _ _ "T3" rfl rfl
    (sourceLatestItem "patient#P2" "email" (FVal.s "b@x.com") (FVal.s "2025")
      "Centene" "T3" "u1" "ETL") (by decide)

/-! ### Claim C9 -/

/-- C9 (confirmed): a batch whose INSERT/MODIFY records all carry an
empty `changes` mapping produces zero candidate records and no write call
to either table; and in general a target table whose accumulated
candidate list is empty is not written to at all. -/
theorem c9_no_candidates_no_write (records : List (StreamRecord V))
    (h : ∀ r ∈ records,
      (r.eventName ≠ "INSERT" ∧ r.eventName ≠ "MODIFY") ∨
      (r.newImage.changes = some [] ∧ r.newImage.resourceType ≠ none ∧
       r.newImage.resourceId ≠ none ∧ r.newImage.occurredAt ≠ none)) :
    (handlerLoop records ([], []) = .ok ([], []) ∧
     handler records = .ok ⟨none, none⟩) ∧
    (∀ (records2 : List (StreamRecord V)) (cs alu : List (Item V))
       (res : HandlerResult V),
       handlerLoop records2 ([], []) = .ok (cs, alu) →
       handler records2 = .ok res →
       (cs = [] → res.currentStateWrites = none) ∧
       (alu = [] → res.attrLastUpdatedWrites = none)) := by
  have hloop : ∀ (rs : List (StreamRecord V)),
      (∀ r ∈ rs,
        (r.eventName ≠ "INSERT" ∧ r.eventName ≠ "MODIFY") ∨
        (r.newImage.changes = some [] ∧ r.newImage.resourceType ≠ none ∧
         r.newImage.resourceId ≠ none ∧ r.newImage.occurredAt ≠ none)) →
      handlerLoop rs ([], []) = .ok ([], []) := by
    intro rs
    induction rs with
    | nil => intro _; rfl
    | cons r rest ih =>
      intro hall
      have hrest := fun q hq => hall q (List.mem_cons_of_mem _ hq)
      rcases hall r (by simp) with ⟨h1, h2⟩ | ⟨hch, hrt, hri, hoc⟩
      · rw [handlerLoop_cons_skip r rest ([], []) (by tauto)]
        exact ih hrest
      · obtain ⟨rt, hrt⟩ := Option.ne_none_iff_exists'.mp hrt
        obtain ⟨ri, hri⟩ := Option.ne_none_iff_exists'.mp hri
        obtain ⟨oc, hoc⟩ := Option.ne_none_iff_exists'.mp hoc
        have hpe : processEventItem r.newImage = .ok ([], []) := by
          unfold processEventItem
          rw [hrt, hri, hch, hoc]
          rfl
        by_cases he : r.eventName = "INSERT" ∨ r.eventName = "MODIFY"
        · rw [handlerLoop_cons_ok r rest ([], []) he hpe]
          simpa using ih hrest
        · rw [handlerLoop_cons_skip r rest ([], []) he]
          exact ih hrest
  constructor
  · refine ⟨hloop records h, ?_⟩
    unfold handler
    rw [hloop records h]
    rfl
  · intro records2 cs alu res hloop2 hh
    unfold handler at hh
    rw [hloop2] at hh
    constructor
    · intro hcs
      subst hcs
      simp only [List.isEmpty_nil, if_true] at hh
      revert hh
      split
      · intro hh; exact absurd hh (by simp)
      next aluW heq =>
        intro hh
        injection hh with hh
        subst hh
        rfl
    · intro halu
      subst halu
      simp only [List.isEmpty_nil, if_true] at hh
      revert hh
      split
      · intro hh; exact absurd hh (by simp)
      next csW heq =>
        intro hh
        injection hh with hh
        subst hh
        rfl

/-- C9 witness: a one-record batch with an empty changes mapping. -/
theorem c9_witness :
    ((handlerLoop [(⟨"MODIFY", eventEmptyChanges⟩ : StreamRecord Unit)] ([], [])
        = .ok ([], []) ∧
      handler [(⟨"MODIFY", eventEmptyChanges⟩ : StreamRecord Unit)]
        = .ok ⟨none, none⟩) ∧
     (∀ (records2 : List (StreamRecord Unit)) (cs alu : List (Item Unit))
        (res : HandlerResult Unit),
        handlerLoop records2 ([], []) = .ok (cs, alu) →
        handler records2 = .ok res →
        (cs = [] → res.currentStateWrites = none) ∧
        (alu = [] → res.attrLastUpdatedWrites = none))) :=
  c9_no_candidates_no_write _ (by decide)

/-! ### Claim C10 -/

/-- C10 (confirmed): deduplication never creates or modifies records —
every record in the output of either deduplication function is, field for
field, one of the records of the input sequence. -/
theorem c10_dedup_only_drops (xs ys zs : List (Item V))
    (h1 : deduplicate_items xs = .ok ys)
    (h2 : deduplicate_latest_records_only xs = .ok zs) :
    (∀ y ∈ ys, y ∈ xs) ∧ (∀ z ∈ zs, z ∈ xs) := by
  constructor
  · unfold deduplicate_items at h1
    revert h1
    cases hl : dedupLoop xs [] with
    | error e => intro h1; exact absurd h1 (by simp)
    | ok d =>
      intro h1
      injection h1 with h1
      subst h1
      intro y hy
      obtain ⟨p, hp, rfl⟩ := List.mem_map.mp hy
      rcases dedupLoop_mem hl p hp with hmem | hmem
      · simp at hmem
      · exact hmem
  · unfold deduplicate_latest_records_only at h2
    revert h2
    cases hl : dedupLatestLoop xs ([], []) with
    | error e => intro h2; exact absurd h2 (by simp)
    | ok acc =>
      intro h2
      injection h2 with h2
      subst h2
      intro z hz
      obtain ⟨hmemh, hmemd⟩ := dedupLatestLoop_mem hl
      rcases List.mem_append.mp hz with hz | hz
      · rcases hmemh z hz with hc | hc
        · simp at hc
        · exact hc
      · obtain ⟨p, hp, rfl⟩ := List.mem_map.mp hz
        rcases hmemd p hp with hc | hc
        · simp at hc
        · exact hc

/-- C10 witness on a concrete mixed sample. -/
theorem c10_witness :
    (∀ y ∈ [itemT2, latT2, histT1], y ∈ dedupSample) ∧
    (∀ z ∈ [itemT2, histT1, latT2], z ∈ dedupSample) :=
  c10_dedup_only_drops dedupSample _ _ rfl rfl

end Projector
